import Mathlib

/-!
Shallow embedding of the hehe agent runtime (crates hehe-core, hehe-tools,
hehe-agent) and proofs about its specification.

Conventions of the embedding:
* Rust machine integers (`usize`, `u64`, `u32`) are modelled as `Nat`; no
  arithmetic in the modelled code can overflow on the inputs considered.
* `serde_json::Value` is modelled by the `Json` inductive below (numbers as
  `Int`); the agent code treats tool inputs as opaque payloads.
* Nondeterministically generated fields (`Id::new()`, `Timestamp::now()`,
  metadata maps) are omitted from structures whose behaviour never reads
  them; a `Session` keeps its externally supplied `id` string.
* `&mut self` methods become state-passing functions returning the new value.
* Async execution and `tokio::time::timeout` are modelled with a discrete
  clock: a tool carries the wall-clock duration `duration_ms` its future
  takes, and `timeout d fut` completes iff that duration is at most `d`.
-/

namespace Hehe

/-- Model of `serde_json::Value` (crate serde_json), used opaquely by the
agent code; numbers are modelled as integers. -/
inductive Json where
  | null
  | bool (b : Bool)
  | num (n : Int)
  | str (s : String)
  | arr (elems : List Json)
  | obj (fields : List (String × Json))

/-- Model of `Role` from hehe-core/src/message/role.rs. -/
inductive Role where
  | system
  | user
  | assistant
  | tool
deriving DecidableEq

/-- Model of `Source` from hehe-core/src/message/content.rs (`Url` and
`Utf8PathBuf` carried as strings, `Bytes` as a byte list). -/
inductive Source where
  | base64 (data : String)
  | url (url : String)
  | file (path : String)
  | bytes (data : List Nat)

/-- Model of `ImageContent` from hehe-core/src/message/content.rs. -/
structure ImageContent where
  source : Source
  media_type : Option String
  alt : Option String

/-- Model of `AudioContent` from hehe-core/src/message/content.rs. -/
structure AudioContent where
  source : Source
  media_type : Option String
  duration_ms : Option Nat
  transcript : Option String

/-- Model of `VideoContent` from hehe-core/src/message/content.rs. -/
structure VideoContent where
  source : Source
  media_type : Option String
  duration_ms : Option Nat

/-- Model of `FileContent` from hehe-core/src/message/content.rs. -/
structure FileContent where
  source : Source
  filename : String
  media_type : Option String
  size : Option Nat

/-- Model of `ToolUse` from hehe-core/src/message/content.rs. -/
structure ToolUse where
  id : String
  name : String
  input : Json

/-- Model of `ToolResult` from hehe-core/src/message/content.rs. -/
structure ToolResult where
  tool_use_id : String
  content : Option String
  error : Option String
  is_error : Bool

/-- Model of `ToolResult::success`. -/
def ToolResult.success (tool_use_id content : String) : ToolResult :=
  { tool_use_id := tool_use_id, content := some content, error := none, is_error := false }

/-- Model of `ToolResult::error`. -/
def ToolResult.mk_error (tool_use_id error : String) : ToolResult :=
  { tool_use_id := tool_use_id, content := none, error := some error, is_error := true }

/-- Model of `ContentBlock` from hehe-core/src/message/content.rs. -/
inductive ContentBlock where
  | text (text : String)
  | image (content : ImageContent)
  | audio (content : AudioContent)
  | video (content : VideoContent)
  | file (content : FileContent)
  | toolUse (tu : ToolUse)
  | toolResult (tr : ToolResult)
  | custom (custom_type : String) (data : Json)

/-- Model of `ContentBlock::as_text`. -/
def ContentBlock.as_text : ContentBlock → Option String
  | .text t => some t
  | _ => none

/-- Model of `ContentBlock::as_tool_use`. -/
def ContentBlock.as_tool_use : ContentBlock → Option ToolUse
  | .toolUse tu => some tu
  | _ => none

/-- Model of `ContentBlock::as_tool_result`. -/
def ContentBlock.as_tool_result : ContentBlock → Option ToolResult
  | .toolResult tr => some tr
  | _ => none

/-- Model of `ContentBlock::is_tool_use`. -/
def ContentBlock.is_tool_use : ContentBlock → Bool
  | .toolUse _ => true
  | _ => false

/-- Model of `Message` from hehe-core/src/message/message.rs; the
nondeterministic `id`, `created_at` and the empty-by-default `metadata`
fields are omitted (nothing in the modelled code reads them). -/
structure Message where
  role : Role
  content : List ContentBlock

/-- Model of `Message::new`. -/
def Message.new (role : Role) (content : List ContentBlock) : Message :=
  { role := role, content := content }

/-- Model of `Message::user`. -/
def Message.user (text : String) : Message :=
  Message.new .user [ContentBlock.text text]

/-- Model of `Message::assistant`. -/
def Message.assistant (text : String) : Message :=
  Message.new .assistant [ContentBlock.text text]

/-- Model of `Message::tool`. -/
def Message.tool (content : List ContentBlock) : Message :=
  Message.new .tool content

/-- Model of `Message::text_content`: concatenation of all `Text` blocks. -/
def Message.text_content (m : Message) : String :=
  String.join (m.content.filterMap ContentBlock.as_text)

/-- Model of `Message::tool_uses`: the `ToolUse` blocks in content order. -/
def Message.tool_uses (m : Message) : List ToolUse :=
  m.content.filterMap ContentBlock.as_tool_use

/-- Model of `SessionStats` from hehe-agent/src/session.rs. -/
structure SessionStats where
  message_count : Nat
  tool_call_count : Nat
  iteration_count : Nat
deriving DecidableEq

/-- Model of `SessionStats::default`. -/
def SessionStats.default : SessionStats :=
  { message_count := 0, tool_call_count := 0, iteration_count := 0 }

/-- Model of `Session` from hehe-agent/src/session.rs. The Rust value is a
handle `{id, created_at, metadata, inner: Arc<RwLock<SessionInner>>}`; the
model carries the `id` (as its display string) and the guarded inner state
`{messages, stats}`, with each `&self`-mutating method becoming a function
returning the updated state. -/
structure Session where
  id : String
  messages : List Message
  stats : SessionStats

/-- Model of `Session::with_id`. -/
def Session.with_id (id : String) : Session :=
  { id := id, messages := [], stats := SessionStats.default }

/-- Model of `Session::add_message`: bumps `message_count`, appends. -/
def Session.add_message (s : Session) (message : Message) : Session :=
  { s with
    messages := s.messages ++ [message]
    stats := { s.stats with message_count := s.stats.message_count + 1 } }

/-- Model of `Session::message_count` (the current log length). -/
def Session.message_count (s : Session) : Nat :=
  s.messages.length

/-- Model of `Session::last_messages`. -/
def Session.last_messages (s : Session) (n : Nat) : List Message :=
  let len := s.messages.length
  if n ≥ len then s.messages else s.messages.drop (len - n)

/-- Model of `Session::clear`: empties the message log only. -/
def Session.clear (s : Session) : Session :=
  { s with messages := [] }

/-- Model of `Session::increment_tool_calls`. -/
def Session.increment_tool_calls (s : Session) (count : Nat) : Session :=
  { s with stats := { s.stats with tool_call_count := s.stats.tool_call_count + count } }

/-- Model of `Session::increment_iterations`. -/
def Session.increment_iterations (s : Session) : Session :=
  { s with stats := { s.stats with iteration_count := s.stats.iteration_count + 1 } }

/-- Model of `Session::truncate_messages`: drops the oldest
`len - max_messages` messages when the log is longer than `max_messages`. -/
def Session.truncate_messages (s : Session) (max_messages : Nat) : Session :=
  if s.messages.length > max_messages then
    { s with messages := s.messages.drop (s.messages.length - max_messages) }
  else s

/-- Model of `ToolError` from hehe-tools/src/error.rs. The `Io`, `Json`,
`Core` and `Http` variants wrap foreign errors; the model carries their
display string. -/
inductive ToolError where
  | NotFound (name : String)
  | AlreadyRegistered (name : String)
  | InvalidInput (msg : String)
  | ExecutionFailed (tool message : String)
  | PermissionDenied (msg : String)
  | Timeout (ms : Nat)
  | Cancelled
  | Io (msg : String)
  | JsonErr (msg : String)
  | Core (msg : String)
  | Http (msg : String)

/-- Model of the `thiserror` `Display` implementation of `ToolError`
(the `#[error(...)]` format strings in hehe-tools/src/error.rs). -/
def ToolError.to_string : ToolError → String
  | .NotFound name => "Tool not found: " ++ name
  | .AlreadyRegistered name => "Tool already registered: " ++ name
  | .InvalidInput msg => "Invalid input: " ++ msg
  | .ExecutionFailed tool message => "Execution failed: " ++ tool ++ " - " ++ message
  | .PermissionDenied msg => "Permission denied: " ++ msg
  | .Timeout ms => "Timeout after " ++ toString ms ++ "ms"
  | .Cancelled => "Cancelled"
  | .Io msg => "IO error: " ++ msg
  | .JsonErr msg => "JSON error: " ++ msg
  | .Core msg => msg
  | .Http msg => "HTTP error: " ++ msg

/-- Model of `ToolDefinition` (hehe-core/src/tool/schema.rs) restricted to
the fields the modelled code reads: the registry key `name` and the
`dangerous` flag; `description` kept for concreteness, the JSON-Schema
`parameters` omitted (never inspected by registry or executor). -/
structure ToolDefinition where
  name : String
  description : String
  dangerous : Bool

/-- Model of `ToolOutput` from hehe-tools/src/traits/tool.rs (the
`artifacts` and `metadata` fields are never read by the executor or
agent loop and are omitted). -/
structure ToolOutput where
  content : String
  is_error : Bool

/-- Model of a `dyn Tool` trait object (hehe-tools/src/traits/tool.rs).
`validate_input` and `run` model the trait methods `validate_input` and
`execute`; `duration_ms` is the wall-clock time the tool's future takes,
used by the discrete-clock model of `tokio::time::timeout`. -/
structure Tool where
  definition : ToolDefinition
  validate_input : Json → Except ToolError Unit
  run : Json → Except ToolError ToolOutput
  duration_ms : Nat

/-- Model of the default `Tool::name` method: `&self.definition().name`. -/
def Tool.name (t : Tool) : String :=
  t.definition.name

/-- Model of `ToolRegistry` from hehe-tools/src/registry.rs. The Rust
`HashMap<String, Arc<dyn Tool>>` is modelled as an association list whose
keys are unique (register refuses duplicates), which realises the same
`get` / `contains_key` / `len` observations. -/
structure ToolRegistry where
  tools : List (String × Tool)

/-- Model of `ToolRegistry::new`. -/
def ToolRegistry.new : ToolRegistry :=
  { tools := [] }

/-- Model of `ToolRegistry::get` (`HashMap::get`). -/
def ToolRegistry.get (r : ToolRegistry) (name : String) : Option Tool :=
  r.tools.lookup name

/-- Model of `ToolRegistry::contains` (`HashMap::contains_key`). -/
def ToolRegistry.contains (r : ToolRegistry) (name : String) : Bool :=
  (r.get name).isSome

/-- Model of `ToolRegistry::len`. -/
def ToolRegistry.len (r : ToolRegistry) : Nat :=
  r.tools.length

/-- Model of `ToolRegistry::register`: fails with `AlreadyRegistered` on a
duplicate name, otherwise inserts. The Rust method mutates `&mut self` and
returns `Result<()>`; the model returns the result with the new state. -/
def ToolRegistry.register (r : ToolRegistry) (tool : Tool) :
    Except ToolError Unit × ToolRegistry :=
  let name := tool.name
  if r.contains name then
    (.error (.AlreadyRegistered name), r)
  else
    (.ok (), { tools := r.tools ++ [(name, tool)] })

/-- Model of `Context` (hehe-core/src/context/mod.rs) as observed by a
single `ToolExecutor::execute` call: `cancelled` is the value of
`is_cancelled()`, and `remaining_ms` is the value of `remaining()` at the
call — `none` when the context carries no deadline, otherwise the
non-negative number of milliseconds until the deadline (the source clamps
a passed deadline to `Duration::ZERO`). -/
structure Context where
  cancelled : Bool
  remaining_ms : Option Nat

/-- Model of `Context::is_cancelled`. -/
def Context.is_cancelled (ctx : Context) : Bool :=
  ctx.cancelled

/-- Model of `Context::remaining` (in whole milliseconds). -/
def Context.remaining (ctx : Context) : Option Nat :=
  ctx.remaining_ms

/-- Model of `ToolExecutor` from hehe-tools/src/executor.rs;
`default_timeout` in milliseconds. The `require_confirmation_for_dangerous`
flag is omitted (never read by `execute`). -/
structure ToolExecutor where
  registry : ToolRegistry
  default_timeout : Nat

/-- Model of `ToolExecutor::execute` (hehe-tools/src/executor.rs lines
36-76): look up the tool (`NotFound` otherwise), fail on a cancelled
context, validate input, compute
`execute_timeout = ctx.remaining().unwrap_or(default).min(default)`, then
run the tool under `tokio::time::timeout(execute_timeout, ..)` — in the
discrete-clock model the tool completes within the window iff
`duration_ms ≤ execute_timeout`, and on expiry the result is
`Timeout(execute_timeout.as_millis())`. -/
def ToolExecutor.execute (te : ToolExecutor) (ctx : Context) (name : String)
    (input : Json) : Except ToolError ToolOutput :=
  match te.registry.get name with
  | none => .error (.NotFound name)
  | some tool =>
    if ctx.is_cancelled then .error .Cancelled
    else
      match tool.validate_input input with
      | .error e => .error e
      | .ok () =>
        let execute_timeout := min ((ctx.remaining).getD te.default_timeout) te.default_timeout
        if tool.duration_ms ≤ execute_timeout then
          tool.run input
        else
          .error (.Timeout execute_timeout)

/-- Wall-clock duration of one `ToolExecutor::execute` call in the
discrete-clock model (the `start.elapsed()` measured by the agent loop):
lookup, cancellation and validation failures are instantaneous; a run is
cut off at the effective timeout. -/
def ToolExecutor.elapsed_ms (te : ToolExecutor) (ctx : Context) (name : String)
    (input : Json) : Nat :=
  match te.registry.get name with
  | none => 0
  | some tool =>
    if ctx.is_cancelled then 0
    else
      match tool.validate_input input with
      | .error _ => 0
      | .ok () =>
        min tool.duration_ms (min ((ctx.remaining).getD te.default_timeout) te.default_timeout)

/-- Model of `StopReason` from hehe-core/src/stream/mod.rs. -/
inductive StopReason where
  | EndTurn
  | MaxTokens
  | StopSequence
  | ToolUseReason
deriving DecidableEq

/-- Model of `StreamChunk` from hehe-core/src/stream/mod.rs
(`MessageId` carried as a string). -/
inductive StreamChunk where
  | messageStart (message_id : String)
  | textDelta (text : String)
  | toolUseStart (id name : String)
  | toolUseDelta (id input_delta : String)
  | toolUseEnd (id : String)
  | contentBlockStart (index : Nat)
  | contentBlockEnd (index : Nat)
  | messageEnd (stop_reason : Option StopReason)
  | usage (input_tokens output_tokens : Nat)
  | error (code message : String)
  | ping
deriving DecidableEq

/-- Model of the private `ToolUseBuilder` from hehe-core/src/stream/mod.rs. -/
structure ToolUseBuilder where
  id : String
  name : String
  input_json : String
deriving DecidableEq

/-- Model of `StreamAggregator` from hehe-core/src/stream/mod.rs
(`message_id` carried as a string). -/
structure StreamAggregator where
  message_id : Option String
  text_buffer : String
  tool_uses : List ToolUseBuilder
  stop_reason : Option StopReason
  input_tokens : Nat
  output_tokens : Nat
  error : Option (String × String)
deriving DecidableEq

/-- Model of `StreamAggregator::new` (`Default::default`). -/
def StreamAggregator.new : StreamAggregator :=
  { message_id := none, text_buffer := "", tool_uses := [],
    stop_reason := none, input_tokens := 0, output_tokens := 0, error := none }

/-- Helper for the `ToolUseDelta` arm of `StreamAggregator::push`: appends
`input_delta` to the first builder whose id matches (Rust
`iter_mut().find(..)`), leaving the list unchanged when no id matches. -/
def appendToolUseDelta (id input_delta : String) :
    List ToolUseBuilder → List ToolUseBuilder
  | [] => []
  | tu :: rest =>
    if tu.id = id then
      { tu with input_json := tu.input_json ++ input_delta } :: rest
    else
      tu :: appendToolUseDelta id input_delta rest

/-- Model of `StreamAggregator::push` (hehe-core/src/stream/mod.rs lines
76-111); `ToolUseEnd`, `ContentBlockStart`, `ContentBlockEnd` and `Ping`
fall into the wildcard arm and are ignored. -/
def StreamAggregator.push (agg : StreamAggregator) (chunk : StreamChunk) :
    StreamAggregator :=
  match chunk with
  | .messageStart message_id => { agg with message_id := some message_id }
  | .textDelta text => { agg with text_buffer := agg.text_buffer ++ text }
  | .toolUseStart id name =>
      { agg with tool_uses := agg.tool_uses ++ [{ id := id, name := name, input_json := "" }] }
  | .toolUseDelta id input_delta =>
      { agg with tool_uses := appendToolUseDelta id input_delta agg.tool_uses }
  | .messageEnd stop_reason => { agg with stop_reason := stop_reason }
  | .usage input_tokens output_tokens =>
      { agg with input_tokens := input_tokens, output_tokens := output_tokens }
  | .error code message => { agg with error := some (code, message) }
  | _ => agg

/-- Feeding a whole chunk sequence to the aggregator, in order. -/
def StreamAggregator.push_all (agg : StreamAggregator) (chunks : List StreamChunk) :
    StreamAggregator :=
  chunks.foldl StreamAggregator.push agg

/-- Model of `StreamAggregator::is_complete`: `self.stop_reason.is_some()`. -/
def StreamAggregator.is_complete (agg : StreamAggregator) : Bool :=
  agg.stop_reason.isSome

/-- Model of `LlmError` from hehe-llm/src/error.rs (transparent foreign
wrappers `Core`, `Reqwest`, `Json` carry their display string). -/
inductive LlmError where
  | Api (provider message : String)
  | RateLimited (provider : String) (retry_after_ms : Option Nat)
  | ContextLengthExceeded (max_tokens : Nat)
  | InvalidRequest (msg : String)
  | InvalidResponse (msg : String)
  | ModelNotFound (msg : String)
  | AuthenticationFailed (msg : String)
  | Network (msg : String)
  | Timeout (ms : Nat)
  | Stream (msg : String)
  | ProviderNotAvailable (msg : String)
  | Tool (msg : String)
  | Config (msg : String)
  | Core (msg : String)
  | Reqwest (msg : String)
  | JsonErr (msg : String)

/-- Debug rendering of `Option<u64>` as used by the `{retry_after_ms:?}`
format in `LlmError::RateLimited`. -/
def optionNatDebug : Option Nat → String
  | none => "None"
  | some n => "Some(" ++ toString n ++ ")"

/-- Model of the `thiserror` `Display` implementation of `LlmError`. -/
def LlmError.to_string : LlmError → String
  | .Api provider message => "API error: " ++ provider ++ " - " ++ message
  | .RateLimited provider retry_after_ms =>
      "Rate limited: " ++ provider ++ ", retry after " ++ optionNatDebug retry_after_ms ++ "ms"
  | .ContextLengthExceeded max_tokens =>
      "Context length exceeded: " ++ toString max_tokens ++ " tokens maximum"
  | .InvalidRequest msg => "Invalid request: " ++ msg
  | .InvalidResponse msg => "Invalid response: " ++ msg
  | .ModelNotFound msg => "Model not found: " ++ msg
  | .AuthenticationFailed msg => "Authentication failed: " ++ msg
  | .Network msg => "Network error: " ++ msg
  | .Timeout ms => "Timeout after " ++ toString ms ++ "ms"
  | .Stream msg => "Stream error: " ++ msg
  | .ProviderNotAvailable msg => "Provider not available: " ++ msg
  | .Tool msg => "Tool error: " ++ msg
  | .Config msg => "Configuration error: " ++ msg
  | .Core msg => msg
  | .Reqwest msg => msg
  | .JsonErr msg => msg

/-- Model of `CompletionResponse` from hehe-llm/src/types/response.rs
restricted to the fields the agent loop reads (`message`; `id`, `model`
kept for concreteness; `stop_reason`, `usage`, `metadata` are never read
by the executor and are omitted). -/
structure CompletionResponse where
  id : String
  model : String
  message : Message

/-- Model of `CompletionResponse::text_content`. -/
def CompletionResponse.text_content (r : CompletionResponse) : String :=
  r.message.text_content

/-- Model of `ToolRegistry::definitions`. The Rust method iterates a
`HashMap`; the model uses insertion order (the agent loop only tests
whether the list is empty). -/
def ToolRegistry.definitions (r : ToolRegistry) : List ToolDefinition :=
  r.tools.map (fun p => p.2.definition)

/-- Model of `CompletionRequest` from hehe-llm/src/types/request.rs
restricted to the fields `Executor::build_request` sets (`max_tokens` as
`Nat`; the `f32` field `temperature` is not representable in the
discrete model and is omitted, as are the never-set `tool_choice`,
`top_p`, `stop`, `stream`, `metadata`). -/
structure CompletionRequest where
  model : String
  messages : List Message
  system : Option String
  tools : Option (List ToolDefinition)
  max_tokens : Option Nat

/-- Model of `AgentConfig` from hehe-agent/src/config.rs restricted to the
fields the executor reads (`name` and the `f32` `temperature` omitted). -/
structure AgentConfig where
  system_prompt : String
  model : String
  max_tokens : Option Nat
  max_iterations : Nat
  max_context_messages : Nat
  tool_timeout_secs : Nat
  tools_enabled : Bool

/-- Model of `AgentConfig::tool_timeout` expressed in milliseconds
(`Duration::from_secs(self.tool_timeout_secs)`). -/
def AgentConfig.tool_timeout_ms (cfg : AgentConfig) : Nat :=
  cfg.tool_timeout_secs * 1000

/-- Model of `AgentError` from hehe-agent/src/error.rs. -/
inductive AgentError where
  | Config (msg : String)
  | SessionNotFound (msg : String)
  | MaxIterationsReached (n : Nat)
  | Llm (e : LlmError)
  | Tool (e : ToolError)
  | Core (msg : String)
  | Cancelled
  | Internal (msg : String)

/-- Model of the `thiserror` `Display` implementation of `AgentError`. -/
def AgentError.to_string : AgentError → String
  | .Config msg => "Configuration error: " ++ msg
  | .SessionNotFound msg => "Session not found: " ++ msg
  | .MaxIterationsReached n => "Max iterations reached: " ++ toString n
  | .Llm e => "LLM error: " ++ e.to_string
  | .Tool e => "Tool error: " ++ e.to_string
  | .Core msg => "Core error: " ++ msg
  | .Cancelled => "Cancelled"
  | .Internal msg => "Internal error: " ++ msg

/-- Model of `ToolCallRecord` from hehe-agent/src/response.rs. -/
structure ToolCallRecord where
  id : String
  name : String
  input : Json
  output : String
  is_error : Bool
  duration_ms : Nat

/-- Model of `AgentResponse` from hehe-agent/src/response.rs (`session_id`
as a string; the empty `metadata` omitted). -/
structure AgentResponse where
  session_id : String
  text : String
  tool_calls : List ToolCallRecord
  iterations : Nat

/-- Model of `AgentEvent` from hehe-agent/src/event.rs (`Id` carried as a
string). -/
inductive AgentEvent where
  | messageStart (session_id : String)
  | textDelta (delta : String)
  | textComplete (text : String)
  | toolUseStart (id name : String) (input : Json)
  | toolUseEnd (id output : String) (is_error : Bool)
  | thinking (content : String)
  | messageEnd (session_id : String)
  | error (message : String)

/-- Model of `AgentEvent::is_end`: `MessageEnd` or `Error`. -/
def AgentEvent.is_end : AgentEvent → Bool
  | .messageEnd _ => true
  | .error _ => true
  | _ => false

/-- An `LlmProvider`'s `complete` method. A provider is an arbitrary
(possibly stateful) object; the model indexes its behaviour by the number
of `complete` calls made so far, which captures every scripted or
stateful provider the loop can face. -/
def Provider : Type :=
  Nat → CompletionRequest → Except LlmError CompletionResponse

/-- Model of `Executor::build_request` (hehe-agent/src/executor.rs lines
128-149): last `max_context_messages` messages, system prompt, optional
`max_tokens`, and the registry's definitions when tools are enabled and
the catalog is non-empty. -/
def Executor.build_request (cfg : AgentConfig) (tools : Option ToolExecutor)
    (session : Session) : CompletionRequest :=
  let messages := session.last_messages cfg.max_context_messages
  let base : CompletionRequest :=
    { model := cfg.model, messages := messages, system := some cfg.system_prompt,
      tools := none, max_tokens := cfg.max_tokens }
  if cfg.tools_enabled then
    match tools with
    | some te =>
      let definitions := te.registry.definitions
      if definitions.isEmpty then base else { base with tools := some definitions }
    | none => base
  else base

/-- Model of `Executor::execute_tools` (hehe-agent/src/executor.rs lines
151-185). With no registry each tool-use is recorded as
`("Tool execution not available: <name>", 0, true)`; otherwise each use is
dispatched sequentially through `ToolExecutor::execute` under a fresh
context with the configured tool timeout (under the discrete clock the
context still carries the full timeout at each dispatch), a success
recording `(output.content, duration, output.is_error)` and an error
recording `(e.to_string(), duration, true)`. -/
def Executor.execute_tools (cfg : AgentConfig) (tools : Option ToolExecutor)
    (tool_uses : List ToolUse) : List (String × Nat × Bool) :=
  match tools with
  | none =>
    tool_uses.map (fun tu => ("Tool execution not available: " ++ tu.name, 0, true))
  | some te =>
    let ctx : Context := { cancelled := false, remaining_ms := some cfg.tool_timeout_ms }
    tool_uses.map (fun tu =>
      match te.execute ctx tu.name tu.input with
      | .ok output => (output.content, te.elapsed_ms ctx tu.name tu.input, output.is_error)
      | .error e => (e.to_string, te.elapsed_ms ctx tu.name tu.input, true))

/-- Outcome of `Executor::execute`: the final session state, the number of
`provider.complete` requests made, and the returned `Result`. -/
structure LoopOut where
  session : Session
  calls : Nat
  result : Except AgentError AgentResponse

/-- The iteration loop of `Executor::execute` (hehe-agent/src/executor.rs
lines 37-102), with explicit fuel for termination. Each pass increments
`iterations` and the session's iteration counter, fails with
`MaxIterationsReached` once `iterations` exceeds the bound, and otherwise
issues one provider request: a response without tool-uses appends the
assistant text and returns; a response with tool-uses appends the
mirrored assistant message, executes the tools, records them, and appends
one tool message before looping. The fuel-exhausted branch is unreachable
from `Executor.execute` (the loop runs at most `max_iterations + 1`
passes). -/
def Executor.execute_go (cfg : AgentConfig) (tools : Option ToolExecutor)
    (provider : Provider) :
    Nat → Nat → Nat → List ToolCallRecord → Session → LoopOut
  | 0, _, calls, _, session =>
    ⟨session, calls, .error (.Internal "loop fuel exhausted")⟩
  | fuel + 1, iterations, calls, all_tool_calls, session =>
    let iterations := iterations + 1
    let session := session.increment_iterations
    if iterations > cfg.max_iterations then
      ⟨session, calls, .error (.MaxIterationsReached cfg.max_iterations)⟩
    else
      let request := Executor.build_request cfg tools session
      match provider calls request with
      | .error e => ⟨session, calls + 1, .error (.Llm e)⟩
      | .ok response =>
        let calls := calls + 1
        let tool_uses := response.message.tool_uses
        if tool_uses.isEmpty then
          let text := response.text_content
          let session := session.add_message (Message.assistant text)
          ⟨session, calls,
            .ok { session_id := session.id, text := text,
                  tool_calls := all_tool_calls, iterations := iterations }⟩
        else
          let assistant_content :=
            (if (response.text_content).isEmpty then [] else [ContentBlock.text response.text_content])
              ++ tool_uses.map ContentBlock.toolUse
          let session := session.add_message (Message.new .assistant assistant_content)
          let tool_results := Executor.execute_tools cfg tools tool_uses
          let all_tool_calls := all_tool_calls ++
            (tool_uses.zip tool_results).map (fun p =>
              { id := p.1.id, name := p.1.name, input := p.1.input,
                output := p.2.1, is_error := p.2.2.2, duration_ms := p.2.2.1 })
          let session := session.increment_tool_calls tool_results.length
          let tool_result_content : List ContentBlock :=
            (tool_uses.zip tool_results).map (fun p =>
              if p.2.2.2 then
                ContentBlock.toolResult (ToolResult.mk_error p.1.id p.2.1)
              else
                ContentBlock.toolResult (ToolResult.success p.1.id p.2.1))
          let session := session.add_message (Message.tool tool_result_content)
          Executor.execute_go cfg tools provider fuel iterations calls all_tool_calls session

/-- Model of `Executor::execute` (hehe-agent/src/executor.rs lines 30-103):
appends the user message and runs the loop; fuel `max_iterations + 1`
covers every pass the loop can take. -/
def Executor.execute (cfg : AgentConfig) (tools : Option ToolExecutor)
    (provider : Provider) (session : Session) (user_input : String) : LoopOut :=
  let session := session.add_message (Message.user user_input)
  Executor.execute_go cfg tools provider (cfg.max_iterations + 1) 0 0 [] session

/-- Model of `Executor::execute_stream` (hehe-agent/src/executor.rs lines
105-126) composed with `Agent::chat_stream` (hehe-agent/src/agent.rs lines
47-62): the spawned task sends `MessageStart`, runs `execute`, then on
success sends `TextComplete(text)` and `MessageEnd` and on failure sends
`Error(e.to_string())`; dropping the channel sender ends the stream, so
the events a subscriber can observe are exactly this list, in order. -/
def Executor.execute_stream_events (cfg : AgentConfig) (tools : Option ToolExecutor)
    (provider : Provider) (session : Session) (user_input : String) :
    LoopOut × List AgentEvent :=
  let out := Executor.execute cfg tools provider session user_input
  let tail : List AgentEvent :=
    match out.result with
    | .ok response => [.textComplete response.text, .messageEnd session.id]
    | .error e => [.error e.to_string]
  (out, .messageStart session.id :: tail)

/-! Concrete instances, mirroring the mocks in the crates' unit tests; used
by witnesses and counterexamples. -/

/-- A config like `AgentConfig::new("mock", "You are helpful.")` with
`max_iterations = 2` (the `test_executor_max_iterations` setup). -/
def mock_config : AgentConfig :=
  { system_prompt := "You are helpful.", model := "mock", max_tokens := none,
    max_iterations := 2, max_context_messages := 50, tool_timeout_secs := 60,
    tools_enabled := true }

/-- The same config with `max_iterations = 1`. -/
def mock_config_one : AgentConfig :=
  { mock_config with max_iterations := 1 }

/-- The assistant message `[ToolUse("call_1", "test_tool", {})]` used by the
executor tests. -/
def tool_use_message : Message :=
  Message.new .assistant
    [ContentBlock.toolUse { id := "call_1", name := "test_tool", input := Json.obj [] }]

/-- A response carrying `tool_use_message`. -/
def tool_use_response : CompletionResponse :=
  { id := "resp-1", model := "mock", message := tool_use_message }

/-- A provider that answers every request with `tool_use_response`. -/
def provider_always_tool : Provider :=
  fun _ _ => .ok tool_use_response

/-- A provider that answers every request with a plain text message. -/
def provider_hello : Provider :=
  fun _ _ => .ok { id := "resp-1", model := "mock", message := Message.assistant "Hello from mock!" }

/-- An echo tool as in the hehe-tools tests (instantaneous). -/
def echo_tool : Tool :=
  { definition := { name := "echo", description := "Echoes input", dangerous := false },
    validate_input := fun _ => .ok (),
    run := fun _ => .ok { content := "mock output", is_error := false },
    duration_ms := 0 }

/-- A registry holding `echo_tool`. -/
def echo_registry : ToolRegistry :=
  (ToolRegistry.new.register echo_tool).2

/-- A tool executor over `echo_registry` with the default 60s timeout. -/
def echo_executor : ToolExecutor :=
  { registry := echo_registry, default_timeout := 60000 }

/-- A tool executor over an empty registry. -/
def empty_executor : ToolExecutor :=
  { registry := ToolRegistry.new, default_timeout := 60000 }

/-- A tool-use naming a tool no registry holds. -/
def noop_tool_use : ToolUse :=
  { id := "c1", name := "noop", input := Json.null }

/-- A session with two appended user messages. -/
def two_message_session : Session :=
  ((Session.with_id "s").add_message (Message.user "a")).add_message (Message.user "b")

/-- First `execute` run of the reused-session scenario: `max_iterations = 1`
against `provider_always_tool`. -/
def reused_run_one : LoopOut :=
  Executor.execute mock_config_one none provider_always_tool (Session.with_id "s") "Hi"

/-- Second `execute` run on the session left by `reused_run_one`. -/
def reused_run_two : LoopOut :=
  Executor.execute mock_config_one none provider_always_tool reused_run_one.session "Hi"

/-! Theorems. -/

/-- Claim C9: for every session state, `Session::clear()` empties the
message log — a subsequent `messages()` returns the empty list and
`message_count()` returns 0 — while the stats counters `message_count`,
`tool_call_count` and `iteration_count` all keep their prior values. -/
theorem claim_C9_clear_frame (s : Session) :
    s.clear.messages = [] ∧ s.clear.message_count = 0 ∧
    s.clear.stats.message_count = s.stats.message_count ∧
    s.clear.stats.tool_call_count = s.stats.tool_call_count ∧
    s.clear.stats.iteration_count = s.stats.iteration_count :=
  ⟨rfl, rfl, rfl, rfl, rfl⟩

/-- Claim C5: when the log is longer than `max`, `truncate(max)` drops
exactly the oldest `len - max` messages, leaving the length-`max` tail in
order, and `stats()` (in particular its `message_count` of total appends)
is not decremented; a log of length at most `max` is left unchanged. -/
theorem claim_C5_truncate_frame (s : Session) (max : Nat) :
    (s.messages.length > max →
      (s.truncate_messages max).messages = s.messages.drop (s.messages.length - max) ∧
      (s.truncate_messages max).messages.length = max ∧
      (s.truncate_messages max).stats = s.stats) ∧
    (s.messages.length ≤ max → s.truncate_messages max = s) := by
  constructor
  · intro h
    refine ⟨?_, ?_, ?_⟩ <;> simp [Session.truncate_messages, if_pos h]
    omega
  · intro h
    simp [Session.truncate_messages, if_neg (Nat.not_lt.mpr h)]

/-- Witness for C5 at a two-message session truncated to one message. -/
theorem claim_C5_truncate_frame_witness :
    (two_message_session.messages.length > 1 ∧
      (two_message_session.truncate_messages 1).messages =
        two_message_session.messages.drop (two_message_session.messages.length - 1) ∧
      (two_message_session.truncate_messages 1).messages.length = 1 ∧
      (two_message_session.truncate_messages 1).stats = two_message_session.stats) ∧
    ((Session.with_id "s").messages.length ≤ 1 ∧
      (Session.with_id "s").truncate_messages 1 = Session.with_id "s") :=
  ⟨⟨by decide, (claim_C5_truncate_frame two_message_session 1).1 (by decide)⟩,
   ⟨by decide, (claim_C5_truncate_frame (Session.with_id "s") 1).2 (by decide)⟩⟩

/-- Claim C4 counterexample: pushing a `MessageEnd` whose `stop_reason` is
absent does not make `is_complete()` true — `is_complete` is
`stop_reason.is_some()`, and `MessageEnd { stop_reason: None }` stores
`None`. -/
theorem claim_C4_counterexample :
    (StreamAggregator.new.push (.messageEnd none)).is_complete = false := rfl

/-- Claim C4 (amended): after pushing any chunk sequence, `is_complete()`
is true exactly when the most recent `MessageEnd` chunk carried a present
(`Some`) `stop_reason` — falling back to the prior `stop_reason` state
when no `MessageEnd` was pushed; in particular a `MessageEnd` with an
absent `stop_reason` leaves `is_complete()` false. -/
theorem claim_C4_is_complete_last_message_end (agg : StreamAggregator)
    (chunks : List StreamChunk) :
    (agg.push_all chunks).is_complete =
      (chunks.foldl
        (fun acc c =>
          match c with
          | StreamChunk.messageEnd stop_reason => stop_reason
          | _ => acc)
        agg.stop_reason).isSome := by
  induction chunks generalizing agg with
  | nil => rfl
  | cons c cs ih =>
    cases c <;>
      simpa [StreamAggregator.push_all, StreamAggregator.push, List.foldl] using
        ih _

/-- Claim C10: registering a tool whose name equals an already-registered
name returns `AlreadyRegistered(name)` and leaves the registry unchanged:
`get(name)` still returns the originally registered tool and `len()` is
unchanged. -/
theorem claim_C10_register_duplicate (r : ToolRegistry) (t t0 : Tool)
    (h : r.get t.name = some t0) :
    (r.register t).1 = .error (.AlreadyRegistered t.name) ∧
    (r.register t).2 = r ∧
    (r.register t).2.get t.name = some t0 ∧
    (r.register t).2.len = r.len := by
  have hc : r.contains t.name = true := by
    simp [ToolRegistry.contains, h]
  refine ⟨?_, ?_, ?_, ?_⟩ <;> simp [ToolRegistry.register, hc, h]

/-- Witness for C10: registering `echo_tool` a second time. -/
theorem claim_C10_register_duplicate_witness :
    echo_registry.get echo_tool.name = some echo_tool ∧
    ((echo_registry.register echo_tool).1 =
        .error (.AlreadyRegistered echo_tool.name) ∧
      (echo_registry.register echo_tool).2 = echo_registry ∧
      (echo_registry.register echo_tool).2.get echo_tool.name = some echo_tool ∧
      (echo_registry.register echo_tool).2.len = echo_registry.len) :=
  ⟨rfl, claim_C10_register_duplicate echo_registry echo_tool echo_tool rfl⟩

/-- Claim C6 counterexample: with a registry present that does not contain
the requested name, the recorded tool-result text is the `ToolError`
display string `"Tool not found: <name>"`, not
`"Tool execution not available: <name>"` (the latter is produced only on
the no-registry path of `Executor::execute_tools`). -/
theorem claim_C6_counterexample :
    Executor.execute_tools mock_config (some empty_executor) [noop_tool_use] =
      [("Tool not found: noop", 0, true)] ∧
    "Tool not found: noop" ≠ "Tool execution not available: noop" :=
  ⟨rfl, by decide⟩

/-- Claim C6 (amended): a tool-use whose name cannot be resolved is always
recorded with `is_error = true`, but the content text differs by case:
with no registry configured it is `"Tool execution not available: <name>"`,
while with a registry that lacks the name it is the surfaced
`ToolError::NotFound` display `"Tool not found: <name>"`. -/
theorem claim_C6_unavailable_tool_text (cfg : AgentConfig) (tus : List ToolUse)
    (i : Nat) (tu : ToolUse) (h : tus[i]? = some tu) :
    (Executor.execute_tools cfg none tus)[i]? =
      some ("Tool execution not available: " ++ tu.name, 0, true) ∧
    ∀ te : ToolExecutor, te.registry.get tu.name = none →
      (Executor.execute_tools cfg (some te) tus)[i]? =
        some ("Tool not found: " ++ tu.name, 0, true) := by
  constructor
  · simp [Executor.execute_tools, List.getElem?_map, h]
  · intro te hmiss
    simp [Executor.execute_tools, List.getElem?_map, h, ToolExecutor.execute,
      ToolExecutor.elapsed_ms, hmiss, ToolError.to_string]

/-- Witness for C6 on the singleton list holding `noop_tool_use`, both
without a registry and with the empty registry. -/
theorem claim_C6_unavailable_tool_text_witness :
    (Executor.execute_tools mock_config none [noop_tool_use])[0]? =
      some ("Tool execution not available: noop", 0, true) ∧
    (Executor.execute_tools mock_config (some empty_executor) [noop_tool_use])[0]? =
      some ("Tool not found: noop", 0, true) :=
  ⟨(claim_C6_unavailable_tool_text mock_config [noop_tool_use] 0 noop_tool_use rfl).1,
   (claim_C6_unavailable_tool_text mock_config [noop_tool_use] 0 noop_tool_use rfl).2
     empty_executor rfl⟩

/-- Claim C8: `ToolExecutor::execute` runs the tool under the effective
deadline `min(ctx.remaining(), default_timeout)` — `default_timeout` when
the context carries no deadline — returning `Timeout` with that deadline
in milliseconds when the tool does not complete within it, and the tool's
own output or error unchanged when it does (under the discrete-clock model
of `tokio::time::timeout`). -/
theorem claim_C8_effective_timeout (te : ToolExecutor) (ctx : Context)
    (name : String) (input : Json) (tool : Tool)
    (hget : te.registry.get name = some tool)
    (hcancel : ctx.is_cancelled = false)
    (hvalid : tool.validate_input input = .ok ()) :
    (min ((ctx.remaining).getD te.default_timeout) te.default_timeout =
      match ctx.remaining with
      | some r => min r te.default_timeout
      | none => te.default_timeout) ∧
    (ctx.remaining = none →
      min ((ctx.remaining).getD te.default_timeout) te.default_timeout =
        te.default_timeout) ∧
    (tool.duration_ms ≤ min ((ctx.remaining).getD te.default_timeout) te.default_timeout →
      te.execute ctx name input = tool.run input) ∧
    (min ((ctx.remaining).getD te.default_timeout) te.default_timeout < tool.duration_ms →
      te.execute ctx name input =
        .error (.Timeout (min ((ctx.remaining).getD te.default_timeout) te.default_timeout))) := by
  refine ⟨?_, ?_, ?_, ?_⟩
  · cases ctx.remaining <;> simp
  · intro hnone
    simp [hnone]
  · intro hfits
    simp [ToolExecutor.execute, hget, hcancel, hvalid, hfits]
  · intro hlate
    simp [ToolExecutor.execute, hget, hcancel, hvalid]
    intro h1 h2
    exact absurd (le_min h1 h2) (Nat.not_le.mpr hlate)

/-- Witness for C8: the echo tool under a 1000ms remaining budget completes
within min(1000, 60000) and its result is passed through unchanged. -/
theorem claim_C8_effective_timeout_witness :
    echo_executor.registry.get "echo" = some echo_tool ∧
    echo_executor.execute { cancelled := false, remaining_ms := some 1000 } "echo" Json.null =
      echo_tool.run Json.null :=
  ⟨rfl,
   (claim_C8_effective_timeout echo_executor
       { cancelled := false, remaining_ms := some 1000 } "echo" Json.null echo_tool
       rfl rfl rfl).2.2.1 (by decide)⟩

/-- `execute_tools` records exactly one result per tool-use. -/
theorem execute_tools_length (cfg : AgentConfig) (tools : Option ToolExecutor)
    (tus : List ToolUse) :
    (Executor.execute_tools cfg tools tus).length = tus.length := by
  cases tools <;> simp [Executor.execute_tools]

/-- `filterMap as_tool_use` recovers the tool-uses wrapped by
`ContentBlock.toolUse`. -/
theorem filterMap_as_tool_use_map (tus : List ToolUse) :
    (tus.map ContentBlock.toolUse).filterMap ContentBlock.as_tool_use = tus := by
  induction tus with
  | nil => rfl
  | cons tu tus ih => simp [List.filterMap_cons, ContentBlock.as_tool_use, ih]

/-- The tool-result blocks built by the loop body carry the zipped
tool-uses' ids, in order, whenever one result exists per use. -/
theorem tool_result_blocks_ids (tus : List ToolUse) (rs : List (String × Nat × Bool))
    (h : rs.length = tus.length) :
    (((tus.zip rs).map (fun p =>
        if p.2.2.2 then ContentBlock.toolResult (ToolResult.mk_error p.1.id p.2.1)
        else ContentBlock.toolResult (ToolResult.success p.1.id p.2.1))).filterMap
          ContentBlock.as_tool_result).map ToolResult.tool_use_id =
      tus.map ToolUse.id := by
  induction tus generalizing rs with
  | nil => simp
  | cons tu tus ih =>
    cases rs with
    | nil => simp at h
    | cons r rs =>
      have h' : rs.length = tus.length := by simpa using h
      by_cases hc : r.2.2 = true
      · simp only [List.zip_cons_cons, List.map_cons, if_pos hc]
        simp only [List.filterMap_cons, ContentBlock.as_tool_result, List.map_cons]
        rw [ih rs h']
        rfl
      · simp only [List.zip_cons_cons, List.map_cons, if_neg hc]
        simp only [List.filterMap_cons, ContentBlock.as_tool_result, List.map_cons]
        rw [ih rs h']
        rfl

/-- One unfolding of the loop on a pass that stays under the iteration
bound and receives a tool-use-bearing response: the pass appends the
mirrored assistant message and the tool-result message, records the tool
calls, and recurses with one more iteration and one more provider call. -/
theorem execute_go_tool_step (cfg : AgentConfig) (tools : Option ToolExecutor)
    (provider : Provider) (fuel iterations calls : Nat)
    (atc : List ToolCallRecord) (session : Session) (response : CompletionResponse)
    (hmax : ¬ (iterations + 1 > cfg.max_iterations))
    (hresp : provider calls
        (Executor.build_request cfg tools session.increment_iterations) = .ok response)
    (hne : (response.message.tool_uses).isEmpty = false) :
    Executor.execute_go cfg tools provider (fuel + 1) iterations calls atc session =
      Executor.execute_go cfg tools provider fuel (iterations + 1) (calls + 1)
        (atc ++ (((response.message.tool_uses).zip
            (Executor.execute_tools cfg tools response.message.tool_uses)).map (fun p =>
          { id := p.1.id, name := p.1.name, input := p.1.input,
            output := p.2.1, is_error := p.2.2.2, duration_ms := p.2.2.1 })))
        ((((session.increment_iterations).add_message
            (Message.new .assistant
              ((if (response.text_content).isEmpty then []
                else [ContentBlock.text response.text_content]) ++
                (response.message.tool_uses).map ContentBlock.toolUse))).increment_tool_calls
            (Executor.execute_tools cfg tools response.message.tool_uses).length).add_message
          (Message.tool (((response.message.tool_uses).zip
              (Executor.execute_tools cfg tools response.message.tool_uses)).map (fun p =>
            if p.2.2.2 then ContentBlock.toolResult (ToolResult.mk_error p.1.id p.2.1)
            else ContentBlock.toolResult (ToolResult.success p.1.id p.2.1))))) := by
  simp only [Executor.execute_go]
  rw [if_neg hmax, hresp]
  simp only [hne, Bool.false_eq_true, if_false]

/-- Claim C2: in every loop iteration whose provider response contains
tool-use blocks, the session gains exactly one assistant message — a
`Text` block holding the response text when that text is non-empty,
followed by the `ToolUse` blocks in the order the provider returned them —
and exactly one tool message whose `ToolResult.tool_use_id` values equal
the assistant message's `ToolUse.id` values in the same order. -/
theorem claim_C2_tool_iteration_messages (cfg : AgentConfig)
    (tools : Option ToolExecutor) (provider : Provider)
    (fuel iterations calls : Nat) (all_tool_calls : List ToolCallRecord)
    (session : Session) (response : CompletionResponse)
    (hiter : iterations + 1 ≤ cfg.max_iterations)
    (hresp : provider calls
        (Executor.build_request cfg tools session.increment_iterations) = .ok response)
    (htus : response.message.tool_uses ≠ []) :
    ∃ (assistant_msg tool_msg : Message) (session2 : Session)
      (atc2 : List ToolCallRecord),
      Executor.execute_go cfg tools provider (fuel + 1) iterations calls
          all_tool_calls session =
        Executor.execute_go cfg tools provider fuel (iterations + 1) (calls + 1)
          atc2 session2 ∧
      session2.messages = session.messages ++ [assistant_msg, tool_msg] ∧
      assistant_msg.role = .assistant ∧
      assistant_msg.content =
        (if (response.text_content).isEmpty then []
          else [ContentBlock.text response.text_content]) ++
          (response.message.tool_uses).map ContentBlock.toolUse ∧
      tool_msg.role = .tool ∧
      (∀ b ∈ tool_msg.content, (ContentBlock.as_tool_result b).isSome = true) ∧
      (tool_msg.content.filterMap ContentBlock.as_tool_result).map ToolResult.tool_use_id =
        (assistant_msg.tool_uses).map ToolUse.id := by
  have hmax : ¬ (iterations + 1 > cfg.max_iterations) := by omega
  have hne : (response.message.tool_uses).isEmpty = false := by
    cases h : response.message.tool_uses with
    | nil => exact absurd h htus
    | cons a l => rfl
  have hstep := execute_go_tool_step cfg tools provider fuel iterations calls
    all_tool_calls session response hmax hresp hne
  refine ⟨Message.new .assistant
      ((if (response.text_content).isEmpty then []
        else [ContentBlock.text response.text_content]) ++
        (response.message.tool_uses).map ContentBlock.toolUse),
    Message.tool (((response.message.tool_uses).zip
        (Executor.execute_tools cfg tools response.message.tool_uses)).map (fun p =>
      if p.2.2.2 then ContentBlock.toolResult (ToolResult.mk_error p.1.id p.2.1)
      else ContentBlock.toolResult (ToolResult.success p.1.id p.2.1))),
    _, _, hstep, ?_, rfl, rfl, rfl, ?_, ?_⟩
  · simp [Session.add_message, Session.increment_iterations, Session.increment_tool_calls,
      Message.new, Message.tool]
  · intro b hb
    obtain ⟨p, hp, rfl⟩ := List.mem_map.mp hb
    by_cases hc : p.2.2.2 <;> simp [hc, ContentBlock.as_tool_result]
  · simp only [Message.tool, Message.new, Message.tool_uses]
    rw [tool_result_blocks_ids _ _ (execute_tools_length cfg tools _)]
    rw [List.filterMap_append, filterMap_as_tool_use_map]
    cases hempty : (response.text_content).isEmpty <;>
      simp [ContentBlock.as_tool_use]

/-- Witness for C2: the first pass of the loop on `provider_always_tool`
appends the mirrored assistant message and the matching tool message. -/
theorem claim_C2_tool_iteration_messages_witness :
    ∃ (assistant_msg tool_msg : Message) (session2 : Session)
      (atc2 : List ToolCallRecord),
      Executor.execute_go mock_config none provider_always_tool 1 0 0 []
          (Session.with_id "w2") =
        Executor.execute_go mock_config none provider_always_tool 0 1 1 atc2 session2 ∧
      session2.messages = (Session.with_id "w2").messages ++ [assistant_msg, tool_msg] ∧
      assistant_msg.role = .assistant ∧
      assistant_msg.content =
        (if (tool_use_response.text_content).isEmpty then []
          else [ContentBlock.text tool_use_response.text_content]) ++
          (tool_use_response.message.tool_uses).map ContentBlock.toolUse ∧
      tool_msg.role = .tool ∧
      (∀ b ∈ tool_msg.content, (ContentBlock.as_tool_result b).isSome = true) ∧
      (tool_msg.content.filterMap ContentBlock.as_tool_result).map ToolResult.tool_use_id =
        (assistant_msg.tool_uses).map ToolUse.id :=
  claim_C2_tool_iteration_messages mock_config none provider_always_tool 0 0 0 []
    (Session.with_id "w2") tool_use_response (by decide) rfl
    (by simp [tool_use_response, tool_use_message, Message.tool_uses, Message.new,
      ContentBlock.as_tool_use])

/-- With a provider whose every answer carries a tool-use, a loop entered
with `iterations + F = max_iterations` and fuel `F + 1` fails with
`MaxIterationsReached(max_iterations)` after exactly `F` further provider
requests. -/
theorem execute_go_always_tool (cfg : AgentConfig) (tools : Option ToolExecutor)
    (provider : Provider)
    (halways : ∀ n req, ∃ r, provider n req = .ok r ∧ r.message.tool_uses ≠ []) :
    ∀ (F iterations calls : Nat) (atc : List ToolCallRecord) (session : Session),
      iterations + F = cfg.max_iterations →
      (Executor.execute_go cfg tools provider (F + 1) iterations calls atc
          session).result = .error (.MaxIterationsReached cfg.max_iterations) ∧
      (Executor.execute_go cfg tools provider (F + 1) iterations calls atc
          session).calls = calls + F := by
  intro F
  induction F with
  | zero =>
    intro iterations calls atc session h
    have hgt : iterations + 1 > cfg.max_iterations := by omega
    constructor <;> simp [Executor.execute_go, if_pos hgt, h]
  | succ F ih =>
    intro iterations calls atc session h
    obtain ⟨r, hr, htus⟩ :=
      halways calls (Executor.build_request cfg tools session.increment_iterations)
    have hne : (r.message.tool_uses).isEmpty = false := by
      cases hh : r.message.tool_uses with
      | nil => exact absurd hh htus
      | cons a l => rfl
    have hmax : ¬ (iterations + 1 > cfg.max_iterations) := by omega
    rw [execute_go_tool_step cfg tools provider (F + 1) iterations calls atc session r
      hmax hr hne]
    refine ⟨(ih (iterations + 1) (calls + 1) _ _ (by omega)).1, ?_⟩
    rw [(ih (iterations + 1) (calls + 1) _ _ (by omega)).2]
    omega

/-- Claim C1 (amended): for a provider that on every call returns a
response containing at least one `ToolUse` block, `execute` fails with
`MaxIterationsReached(max_iterations)` after exactly `max_iterations`
provider requests — the bound check precedes the provider call in each
pass, so the pass that reports the bound issues no request. -/
theorem claim_C1_max_iterations_requests (cfg : AgentConfig)
    (tools : Option ToolExecutor) (provider : Provider) (session : Session)
    (user_input : String)
    (halways : ∀ n req, ∃ r, provider n req = .ok r ∧ r.message.tool_uses ≠ []) :
    (Executor.execute cfg tools provider session user_input).result =
      .error (.MaxIterationsReached cfg.max_iterations) ∧
    (Executor.execute cfg tools provider session user_input).calls =
      cfg.max_iterations := by
  have h := execute_go_always_tool cfg tools provider halways cfg.max_iterations 0 0 []
    (session.add_message (Message.user user_input)) (by omega)
  constructor
  · simp only [Executor.execute]
    exact h.1
  · simp only [Executor.execute]
    rw [h.2]
    omega

/-- Witness for C1 with `max_iterations = 1`: one provider request, then
the bound is reported. -/
theorem claim_C1_max_iterations_requests_witness :
    (Executor.execute mock_config_one none provider_always_tool
        (Session.with_id "w1") "Hi").result =
      .error (.MaxIterationsReached mock_config_one.max_iterations) ∧
    (Executor.execute mock_config_one none provider_always_tool
        (Session.with_id "w1") "Hi").calls = mock_config_one.max_iterations :=
  claim_C1_max_iterations_requests mock_config_one none provider_always_tool
    (Session.with_id "w1") "Hi"
    (fun _ _ => ⟨tool_use_response, rfl, by
      simp [tool_use_response, tool_use_message, Message.tool_uses, Message.new,
        ContentBlock.as_tool_use]⟩)

/-- Claim C1 counterexample: with `max_iterations = 2` and a provider that
always returns a tool-use response, `execute` fails with
`MaxIterationsReached(2)` after exactly 2 provider requests — not the
`2 + 1` the claim asserts. -/
theorem claim_C1_counterexample :
    (Executor.execute mock_config none provider_always_tool
        (Session.with_id "s") "Hi").result = .error (.MaxIterationsReached 2) ∧
    (Executor.execute mock_config none provider_always_tool
        (Session.with_id "s") "Hi").calls = 2 ∧
    (2 : Nat) ≠ 2 + 1 :=
  ⟨rfl, rfl, by decide⟩

/-- The loop never decreases the session's iteration counter. -/
theorem execute_go_iteration_count_mono (cfg : AgentConfig)
    (tools : Option ToolExecutor) (provider : Provider) :
    ∀ (fuel iterations calls : Nat) (atc : List ToolCallRecord) (session : Session),
      session.stats.iteration_count ≤
        (Executor.execute_go cfg tools provider fuel iterations calls atc
            session).session.stats.iteration_count := by
  intro fuel
  induction fuel with
  | zero =>
    intro it c atc s
    simp [Executor.execute_go]
  | succ fuel ih =>
    intro it c atc s
    by_cases hmax : it + 1 > cfg.max_iterations
    · simp only [Executor.execute_go]
      rw [if_pos hmax]
      simp only [Session.increment_iterations]
      omega
    · cases hp : provider c (Executor.build_request cfg tools s.increment_iterations) with
      | error e =>
        simp only [Executor.execute_go]
        rw [if_neg hmax]
        simp only [hp]
        simp only [Session.increment_iterations]
        omega
      | ok r =>
        by_cases hne : (r.message.tool_uses).isEmpty
        · simp only [Executor.execute_go]
          rw [if_neg hmax]
          simp only [hp]
          rw [if_pos hne]
          simp only [Session.add_message, Session.increment_iterations]
          omega
        · have hne' : (r.message.tool_uses).isEmpty = false := by
            simpa using hne
          rw [execute_go_tool_step cfg tools provider fuel it c atc s r hmax hp hne']
          refine le_trans ?_ (ih (it + 1) (c + 1) _ _)
          simp only [Session.add_message, Session.increment_iterations,
            Session.increment_tool_calls]
          omega

/-- When the loop reports `MaxIterationsReached`, the reported bound is
`max_iterations`, and a run entered at `iterations ≤ max_iterations`
increments the session's iteration counter exactly
`max_iterations + 1 - iterations` times before reporting it. -/
theorem execute_go_max_reached (cfg : AgentConfig) (tools : Option ToolExecutor)
    (provider : Provider) :
    ∀ (fuel iterations calls : Nat) (atc : List ToolCallRecord) (session : Session)
      (m : Nat),
      iterations ≤ cfg.max_iterations →
      (Executor.execute_go cfg tools provider fuel iterations calls atc
          session).result = .error (.MaxIterationsReached m) →
      m = cfg.max_iterations ∧
      (Executor.execute_go cfg tools provider fuel iterations calls atc
          session).session.stats.iteration_count =
        session.stats.iteration_count + (cfg.max_iterations + 1 - iterations) := by
  intro fuel
  induction fuel with
  | zero =>
    intro it c atc s m hle hres
    simp [Executor.execute_go] at hres
  | succ fuel ih =>
    intro it c atc s m hle hres
    by_cases hmax : it + 1 > cfg.max_iterations
    · simp only [Executor.execute_go] at hres ⊢
      rw [if_pos hmax] at hres ⊢
      simp only [Except.error.injEq, AgentError.MaxIterationsReached.injEq] at hres
      refine ⟨hres.symm, ?_⟩
      simp only [Session.increment_iterations]
      omega
    · cases hp : provider c (Executor.build_request cfg tools s.increment_iterations) with
      | error e =>
        simp only [Executor.execute_go] at hres
        rw [if_neg hmax] at hres
        simp [hp] at hres
      | ok r =>
        by_cases hne : (r.message.tool_uses).isEmpty
        · simp only [Executor.execute_go] at hres
          rw [if_neg hmax] at hres
          simp only [hp] at hres
          rw [if_pos hne] at hres
          simp at hres
        · have hne' : (r.message.tool_uses).isEmpty = false := by
            simpa using hne
          rw [execute_go_tool_step cfg tools provider fuel it c atc s r hmax hp hne'] at hres ⊢
          have h := ih (it + 1) (c + 1) _ _ m (by omega) hres
          refine ⟨h.1, ?_⟩
          rw [h.2]
          simp only [Session.add_message, Session.increment_iterations,
            Session.increment_tool_calls]
          omega

/-- Claim C7 (amended): the session stat `iteration_count` is
non-decreasing under every session operation and under `execute`; and
whenever `execute` returns `MaxIterationsReached(m)`, the bound reported
is `m = max_iterations` and the call has increased the session's
`iteration_count` by exactly `max_iterations + 1` over its pre-call value
— so the counter is `max_iterations + 1` at that moment only for a
session whose counter started at zero, while a session reused across
several `process` calls accumulates the increments. -/
theorem claim_C7_iteration_count :
    (∀ (s : Session) (msg : Message),
      s.stats.iteration_count ≤ (s.add_message msg).stats.iteration_count) ∧
    (∀ s : Session, s.stats.iteration_count ≤ s.clear.stats.iteration_count) ∧
    (∀ (s : Session) (k : Nat),
      s.stats.iteration_count ≤ (s.increment_tool_calls k).stats.iteration_count) ∧
    (∀ s : Session,
      s.stats.iteration_count ≤ s.increment_iterations.stats.iteration_count) ∧
    (∀ (s : Session) (n : Nat),
      s.stats.iteration_count ≤ (s.truncate_messages n).stats.iteration_count) ∧
    (∀ (cfg : AgentConfig) (tools : Option ToolExecutor) (provider : Provider)
      (s : Session) (input : String),
      s.stats.iteration_count ≤
        (Executor.execute cfg tools provider s input).session.stats.iteration_count) ∧
    (∀ (cfg : AgentConfig) (tools : Option ToolExecutor) (provider : Provider)
      (s : Session) (input : String) (m : Nat),
      (Executor.execute cfg tools provider s input).result =
        .error (.MaxIterationsReached m) →
      m = cfg.max_iterations ∧
      (Executor.execute cfg tools provider s input).session.stats.iteration_count =
        s.stats.iteration_count + (cfg.max_iterations + 1)) := by
  refine ⟨?_, ?_, ?_, ?_, ?_, ?_, ?_⟩
  · intro s msg
    simp [Session.add_message]
  · intro s
    simp [Session.clear]
  · intro s k
    simp [Session.increment_tool_calls]
  · intro s
    simp [Session.increment_iterations]
  · intro s n
    unfold Session.truncate_messages
    split <;> simp
  · intro cfg tools provider s input
    simp only [Executor.execute]
    refine le_trans ?_
      (execute_go_iteration_count_mono cfg tools provider (cfg.max_iterations + 1) 0 0 []
        (s.add_message (Message.user input)))
    simp [Session.add_message]
  · intro cfg tools provider s input m hres
    simp only [Executor.execute] at hres ⊢
    have h := execute_go_max_reached cfg tools provider (cfg.max_iterations + 1) 0 0 []
      (s.add_message (Message.user input)) m (by omega) hres
    refine ⟨h.1, ?_⟩
    rw [h.2]
    simp [Session.add_message]

/-- Claim C7 counterexample: reusing one session across two `process`
calls that both hit the bound (`max_iterations = 1`) leaves
`iteration_count = 4` at the moment the second `MaxIterationsReached` is
returned, exceeding `max_iterations + 1 = 2`. -/
theorem claim_C7_counterexample :
    reused_run_two.result = .error (.MaxIterationsReached 1) ∧
    reused_run_two.session.stats.iteration_count = 4 ∧
    ¬ (4 ≤ 1 + 1) :=
  ⟨rfl, rfl, by decide⟩

/-- Witness for C7: a fresh session run into the bound with
`max_iterations = 1` ends with `iteration_count = 0 + (1 + 1)`. -/
theorem claim_C7_iteration_count_witness :
    1 = mock_config_one.max_iterations ∧
    (Executor.execute mock_config_one none provider_always_tool
        (Session.with_id "w7") "Hi").session.stats.iteration_count =
      (Session.with_id "w7").stats.iteration_count +
        (mock_config_one.max_iterations + 1) :=
  claim_C7_iteration_count.2.2.2.2.2.2 mock_config_one none provider_always_tool
    (Session.with_id "w7") "Hi" 1 rfl

/-- Claim C3: every event sequence produced by `chat_stream` begins with
`MessageStart{session_id}` and contains exactly one terminal event —
`MessageEnd` on success, preceded by a `TextComplete` carrying the full
assistant text, or `Error{message}` on failure — with no events after the
terminal event (the terminal event is the last of the sequence). -/
theorem claim_C3_stream_framing (cfg : AgentConfig) (tools : Option ToolExecutor)
    (provider : Provider) (session : Session) (user_input : String) :
    ((Executor.execute_stream_events cfg tools provider session user_input).2.head? =
      some (.messageStart session.id)) ∧
    (((Executor.execute_stream_events cfg tools provider session user_input).2.filter
        AgentEvent.is_end).length = 1) ∧
    (∃ e, (Executor.execute_stream_events cfg tools provider session
        user_input).2.getLast? = some e ∧ e.is_end = true) ∧
    (∀ r, (Executor.execute_stream_events cfg tools provider session
        user_input).1.result = .ok r →
      (Executor.execute_stream_events cfg tools provider session user_input).2 =
        [.messageStart session.id, .textComplete r.text, .messageEnd session.id]) ∧
    (∀ e, (Executor.execute_stream_events cfg tools provider session
        user_input).1.result = .error e →
      (Executor.execute_stream_events cfg tools provider session user_input).2 =
        [.messageStart session.id, .error e.to_string]) := by
  cases hres : (Executor.execute cfg tools provider session user_input).result with
  | ok r =>
    refine ⟨?_, ?_, ?_, ?_, ?_⟩ <;>
      simp [Executor.execute_stream_events, hres, AgentEvent.is_end, List.filter]
  | error e =>
    refine ⟨?_, ?_, ?_, ?_, ?_⟩ <;>
      simp [Executor.execute_stream_events, hres, AgentEvent.is_end, List.filter]

/-- Witness for C3 against the plain-text provider: the stream is exactly
`MessageStart, TextComplete("Hello from mock!"), MessageEnd`. -/
theorem claim_C3_stream_framing_witness :
    (Executor.execute_stream_events mock_config none provider_hello
        (Session.with_id "s3") "Hi").2 =
      [.messageStart "s3", .textComplete "Hello from mock!", .messageEnd "s3"] :=
  (claim_C3_stream_framing mock_config none provider_hello
      (Session.with_id "s3") "Hi").2.2.2.1
    { session_id := "s3", text := "Hello from mock!", tool_calls := [], iterations := 1 }
    rfl

end Hehe
